import Mathlib

/-!
Verification development for the job-scraper pipeline
(URL builder, listing extractor, skill filter, pagination controller).

The Python source operates on BeautifulSoup markup trees; here the markup is
modelled by an explicit tree type `Node`, and the BeautifulSoup navigation
primitives used by the source (`find`, `find_all`, `.text`, `.get`,
`.strip()`, `.lower()`) are given executable models at the character-list
level, so that every definition evaluates by kernel reduction.
-/

namespace JobScraper

/-- Model of Python `str.strip()`: drop leading and trailing whitespace. -/
def stripStr (s : String) : String :=
  String.mk (((s.data.dropWhile Char.isWhitespace).reverse.dropWhile Char.isWhitespace).reverse)

/-- Model of Python `str.lower()` (ASCII case folding, as used by the source). -/
def lowerStr (s : String) : String :=
  String.mk (s.data.map Char.toLower)

/-- First list is a leading segment of the second. -/
def listStartsWith : List Char → List Char → Bool
  | [], _ => true
  | _ :: _, [] => false
  | a :: as, b :: bs => a == b && listStartsWith as bs

/-- First list is a trailing segment of the second. -/
def listEndsWith (p : List Char) : List Char → Bool
  | [] => p.isEmpty
  | l@(_ :: rest) => p == l || listEndsWith p rest

/-- Model of Python `pat in hay` on strings: contiguous-subsequence test. -/
def containsSeq (pat : List Char) : List Char → Bool
  | [] => listStartsWith pat []
  | l@(_ :: rest) => listStartsWith pat l || containsSeq pat rest

/-- Number of start positions at which `pat` occurs in the list. -/
def countPat (pat : List Char) : List Char → Nat
  | [] => if listStartsWith pat [] then 1 else 0
  | l@(_ :: rest) => (if listStartsWith pat l then 1 else 0) + countPat pat rest

/-- Number of occurrences of `pat` in `A ++ B` that start inside `A`. -/
def countIn (pat : List Char) : List Char → List Char → Nat
  | [], _ => 0
  | a :: as, B => (if listStartsWith pat ((a :: as) ++ B) then 1 else 0) + countIn pat as B

/-- Substring containment on strings, as Python `in`. -/
def strContains (hay pat : String) : Bool :=
  containsSeq pat.data hay.data

/-- Markup tree: a text node or an element with a name, attributes and children. -/
inductive Node where
  | text : String → Node
  | tag : String → List (String × String) → List Node → Node

mutual

/-- All proper descendants of a node, in document (preorder) order. -/
def descendants : Node → List Node
  | Node.text _ => []
  | Node.tag _ _ cs => descendantsList cs

def descendantsList : List Node → List Node
  | [] => []
  | c :: cs => c :: (descendants c ++ descendantsList cs)

end

mutual

/-- Model of BeautifulSoup `.text`: concatenation of all descendant strings. -/
def nodeText : Node → String
  | Node.text s => s
  | Node.tag _ _ cs => textList cs

def textList : List Node → String
  | [] => ""
  | c :: cs => nodeText c ++ textList cs

end

/-- Attribute list of an element (empty for text nodes). -/
def attrsOf : Node → List (String × String)
  | Node.text _ => []
  | Node.tag _ a _ => a

/-- Model of BeautifulSoup `tag.get(key)`. -/
def getAttr (n : Node) (k : String) : Option String :=
  (attrsOf n).lookup k

/-- Direct children of a node. -/
def childrenOf : Node → List Node
  | Node.text _ => []
  | Node.tag _ _ cs => cs

/-- Whether a node is an element (not a text node). -/
def isTagNode : Node → Bool
  | Node.text _ => false
  | Node.tag _ _ _ => true

/-- Direct child elements of a node. -/
def childTags (n : Node) : List Node :=
  (childrenOf n).filter isTagNode

/-- Split a class attribute string at whitespace into single class names. -/
def classWordsAux : List Char → List Char → List String
  | [], [] => []
  | [], acc => [String.mk acc.reverse]
  | c :: cs, acc =>
    if c.isWhitespace then
      (if acc.isEmpty then classWordsAux cs [] else String.mk acc.reverse :: classWordsAux cs [])
    else classWordsAux cs (c :: acc)

def classWords (s : String) : List String :=
  classWordsAux s.data []

/-- Name of the class attribute. -/
def classAttrKey : String := "class"

/-- Model of BeautifulSoup class matching: the query matches either one of the
element's whitespace-separated class names or the whole class attribute. -/
def classAttrMatches (n : Node) (query : String) : Bool :=
  match getAttr n classAttrKey with
  | none => false
  | some c => query == c || (classWords c).contains query

/-- Whether an element matches a tag-name query and an optional class query. -/
def nodeMatches (n : Node) (name : String) (cls : Option String) : Bool :=
  match n with
  | Node.text _ => false
  | Node.tag nm _ _ =>
    nm == name && (match cls with
      | none => true
      | some c => classAttrMatches n c)

/-- Model of BeautifulSoup `element.find(name, class_=cls)`: first matching
descendant in document order. -/
def find (n : Node) (name : String) (cls : Option String) : Option Node :=
  (descendants n).find? (fun d => nodeMatches d name cls)

/-- Model of BeautifulSoup `element.find_all(name, class_=cls)`: all matching
descendants in document order. -/
def findAll (n : Node) (name : String) (cls : Option String) : List Node :=
  (descendants n).filter (fun d => nodeMatches d name cls)

/-! URL builder (`build_search_url`): Python
`urllib.parse.quote_plus` is modelled per character. Python quotes at the
UTF-8 byte level; since every byte of a multi-byte character is unsafe and
every safe byte is a one-byte (ASCII) character, the per-character model
below produces exactly the same string. -/

/-- Uppercase hexadecimal digit, as used by percent-encoding. -/
def hexDigit (n : Nat) : Char :=
  match n with
  | 0 => '0' | 1 => '1' | 2 => '2' | 3 => '3' | 4 => '4'
  | 5 => '5' | 6 => '6' | 7 => '7' | 8 => '8' | 9 => '9'
  | 10 => 'A' | 11 => 'B' | 12 => 'C' | 13 => 'D' | 14 => 'E'
  | _ => 'F'

/-- UTF-8 bytes of a code point. -/
def utf8Bytes (n : Nat) : List Nat :=
  if n < 0x80 then [n]
  else if n < 0x800 then [0xC0 + n / 0x40, 0x80 + n % 0x40]
  else if n < 0x10000 then
    [0xE0 + n / 0x1000, 0x80 + (n / 0x40) % 0x40, 0x80 + n % 0x40]
  else
    [0xF0 + n / 0x40000, 0x80 + (n / 0x1000) % 0x40, 0x80 + (n / 0x40) % 0x40,
     0x80 + n % 0x40]

/-- Characters `quote_plus` passes through unchanged (Python's always-safe set). -/
def isSafeChar (c : Char) : Bool :=
  c.isAlpha || c.isDigit || c == '-' || c == '_' || c == '.' || c == '~'

/-- Encoding of one character under Python `quote_plus`: space becomes a plus,
safe characters stand for themselves, everything else is percent-encoded
byte by byte. -/
def quoteChar (c : Char) : List Char :=
  if c = ' ' then ['+']
  else if isSafeChar c then [c]
  else (utf8Bytes c.toNat).flatMap (fun b => ['%', hexDigit (b / 16), hexDigit (b % 16)])

/-- Model of Python `urllib.parse.quote_plus`. -/
def quote_plus (s : String) : String :=
  String.mk (s.data.flatMap quoteChar)

/-- Model of Python `'&'.join(...)`. -/
def joinAmp : List String → String
  | [] => ""
  | [s] => s
  | s :: t :: rest => s ++ "&" ++ joinAmp (t :: rest)

def base_url : String := "https://www.timesjobs.com/candidate/job-search.html"

/-- The parameter list of `build_search_url`, in the source's insertion order;
`txtLocation` is appended only when `location` is non-empty (Python string
truthiness). -/
def searchParams (search_query location : String) (page : Nat) : List (String × String) :=
  [("from", "submit"),
   ("luceneResultSize", "25"),
   ("txtKeywords", search_query),
   ("postWeek", "60"),
   ("searchType", "personalizedSearch"),
   ("actualTxtKeywords", search_query),
   ("searchBy", "0"),
   ("rdoOperator", "OR"),
   ("pDate", "I"),
   ("sequence", Nat.repr page),
   ("startPage", "1")]
  ++ (if location = "" then [] else [("txtLocation", location)])

/-- Model of `JobScraper.build_search_url`: keys joined to quoted values with
an equals sign, parameters joined with ampersands behind the base URL. -/
def build_search_url (search_query location : String) (page : Nat) : String :=
  base_url ++ "?" ++
    joinAmp ((searchParams search_query location page).map
      (fun kv => kv.1 ++ "=" ++ quote_plus kv.2))

/-- Join segments with an equals sign between consecutive segments. Splitting
the URL at every equals sign and rejoining with `sepJoin` is the backbone of
the occurrence-counting argument for the URL builder. -/
def sepJoin : List (List Char) → List Char
  | [] => []
  | [s] => s
  | s :: t :: rest => s ++ '=' :: sepJoin (t :: rest)

/-- Number of consecutive segment pairs whose boundary carries an occurrence
of `pre ++ '=' :: post`: the first segment ends with `pre` and the second
starts with `post`. -/
def pairCount (pre post : List Char) : List (List Char) → Nat
  | [] => 0
  | [_] => 0
  | a :: b :: rest =>
    (if listEndsWith pre a && listStartsWith post b then 1 else 0)
      + pairCount pre post (b :: rest)

/-- The URL of `build_search_url`, split at every equals sign: each segment is
free of equals signs, because quoting percent-encodes them. -/
def urlSegs (search_query location : String) (page : Nat) : List (List Char) :=
  [base_url.data ++ ("?".data ++ "from".data),
   (quote_plus "submit").data ++ ("&".data ++ "luceneResultSize".data),
   (quote_plus "25").data ++ ("&".data ++ "txtKeywords".data),
   (quote_plus search_query).data ++ ("&".data ++ "postWeek".data),
   (quote_plus "60").data ++ ("&".data ++ "searchType".data),
   (quote_plus "personalizedSearch").data ++ ("&".data ++ "actualTxtKeywords".data),
   (quote_plus search_query).data ++ ("&".data ++ "searchBy".data),
   (quote_plus "0").data ++ ("&".data ++ "rdoOperator".data),
   (quote_plus "OR").data ++ ("&".data ++ "pDate".data),
   (quote_plus "I").data ++ ("&".data ++ "sequence".data),
   (quote_plus (Nat.repr page)).data ++ ("&".data ++ "startPage".data)]
  ++ (if location = "" then [(quote_plus "1").data]
      else [(quote_plus "1").data ++ ("&".data ++ "txtLocation".data),
            (quote_plus location).data])

/-! Listing extractor (`extract_job_info`). -/

/-- A structured job record; all nine fields are always present. -/
structure Job where
  company : String
  job_title : String
  skills : List String
  experience : String
  salary : String
  location : String
  job_description : String
  posted_date : String
  more_info : String
deriving DecidableEq, Repr

/-- The sentinel stored whenever a field's lookup fails or its text is blank. -/
def sentinel : String := "N/A"

/-- A trimmed text, or the sentinel when it is blank (the source's pattern
`value = x.text.strip() if x.text.strip() else default`). -/
def orNA (s : String) : String :=
  if s = "" then sentinel else s

/-- Company lookup: `job_element.find('h3', class_='joblist-comp-name')`. -/
def companyOf (job_element : Node) : String :=
  match find job_element "h3" (some "joblist-comp-name") with
  | some e => stripStr (nodeText e)
  | none => sentinel

/-- Title lookup: `job_element.find('h2', class_='heading-trun')`. -/
def titleOf (job_element : Node) : String :=
  match find job_element "h2" (some "heading-trun") with
  | some e => stripStr (nodeText e)
  | none => sentinel

/-- Skills lookup: every span inside
`job_element.find('div', class_='more-skills-sections')`, trimmed. -/
def skillsOf (job_element : Node) : List String :=
  match find job_element "div" (some "more-skills-sections") with
  | some sec => (findAll sec "span" none).map (fun sk => stripStr (nodeText sk))
  | none => []

/-- Detail-list lookup, giving `(location, experience, salary)`: the first
three items of `find('ul', class_='top-jd-dtl mt-16 clearfix').find_all('li')`
when at least three exist, each position falling back to the sentinel when
its trimmed text is blank. -/
def detailOf (job_element : Node) : String × String × String :=
  match find job_element "ul" (some "top-jd-dtl mt-16 clearfix") with
  | none => (sentinel, sentinel, sentinel)
  | some ul =>
    match findAll ul "li" none with
    | l0 :: l1 :: l2 :: _ =>
      (orNA (stripStr (nodeText l0)), orNA (stripStr (nodeText l1)),
       orNA (stripStr (nodeText l2)))
    | _ => (sentinel, sentinel, sentinel)

/-- Posted-date lookup: the first span nested inside
`job_element.find('span', class_='sim-posted')`. -/
def postedOf (job_element : Node) : String :=
  match find job_element "span" (some "sim-posted") with
  | some pe =>
    match find pe "span" none with
    | some sp => stripStr (nodeText sp)
    | none => sentinel
  | none => sentinel

/-- More-info lookup: the first hyperlink's `href` attribute; the sentinel when
there is no hyperlink, no `href`, or an empty (falsy) `href`. -/
def moreInfoOf (job_element : Node) : String :=
  match find job_element "a" none with
  | some a =>
    (match getAttr a "href" with
     | some h => if h = "" then sentinel else h
     | none => sentinel)
  | none => sentinel

/-- Description lookup: `job_element.find('li', class_='job-description__')`. -/
def descriptionOf (job_element : Node) : String :=
  match find job_element "li" (some "job-description__") with
  | some e => stripStr (nodeText e)
  | none => sentinel

/-- Model of `JobScraper.extract_job_info`. Every field lookup substitutes the
sentinel on failure; the source's `except`-branch (return `None` on an
unexpected exception) is unreachable in this pure model, so the result is
always `some` of a fully-populated record. -/
def extract_job_info (job_element : Node) : Option Job :=
  some
    { company := companyOf job_element
      job_title := titleOf job_element
      skills := skillsOf job_element
      experience := (detailOf job_element).2.1
      salary := (detailOf job_element).2.2
      location := (detailOf job_element).1
      job_description := descriptionOf job_element
      posted_date := postedOf job_element
      more_info := moreInfoOf job_element }

/-! Skill filter (`filter_jobs_by_skills`). -/

/-- The source's `has_unfamiliar` test for one record: some unfamiliar skill,
lower-cased and stripped, occurs as a substring of some of the record's
skill tokens, lower-cased. -/
def hasUnfamiliarSkill (job : Job) (unfamiliar_skills : List String) : Bool :=
  (unfamiliar_skills.map (fun sk => stripStr (lowerStr sk))).any
    (fun unfamiliar => (job.skills.map lowerStr).any
      (fun job_skill => strContains job_skill unfamiliar))

/-- Model of `JobScraper.filter_jobs_by_skills`: keep, in order, the records
without any unfamiliar skill. -/
def filter_jobs_by_skills : List Job → List String → List Job
  | [], _ => []
  | job :: rest, unfamiliar_skills =>
    if hasUnfamiliarSkill job unfamiliar_skills then
      filter_jobs_by_skills rest unfamiliar_skills
    else
      job :: filter_jobs_by_skills rest unfamiliar_skills

/-- The exclusion predicate in the spec's words: some entry of
`unfamiliarSkills`, lower-cased and trimmed, is a substring of some of the
record's skill tokens, lower-cased. -/
def skillExcluded (job : Job) (unfamiliar_skills : List String) : Prop :=
  ∃ u ∈ unfamiliar_skills, ∃ sk ∈ job.skills,
    strContains (lowerStr sk) (stripStr (lowerStr u)) = true

instance (job : Job) (unfamiliar_skills : List String) :
    Decidable (skillExcluded job unfamiliar_skills) :=
  inferInstanceAs (Decidable (∃ _ ∈ _, ∃ _ ∈ _, _))

/-! Pagination controller (`scrape_jobs`). The transport-and-parse step for one
page (build the URL, `session.get`, `raise_for_status`, parse, select the
listing containers) is abstracted as a page-indexed fetcher whose outcome is
one of the error taxonomy's cases. -/

/-- Outcome of fetching and parsing one page: a `requests.RequestException`
(network, timeout or non-2xx status), any other exception while handling the
page, or success with the list of listing fragments found. -/
inductive PageResult where
  | fetchErr : PageResult
  | parseErr : PageResult
  | ok : List Node → PageResult

/-- The page loop of `scrape_jobs` over a list of page numbers. Returns the
accumulated records and the log of pages actually fetched, in order: a fetch
or parse error skips the page and continues, a successful page with no
fragments stops the loop, and a successful page with fragments contributes
the records its fragments extract to. -/
def scrapePages (fetch : Nat → PageResult) : List Nat → List Job × List Nat
  | [] => ([], [])
  | p :: rest =>
    match fetch p with
    | PageResult.fetchErr =>
      let r := scrapePages fetch rest
      (r.1, p :: r.2)
    | PageResult.parseErr =>
      let r := scrapePages fetch rest
      (r.1, p :: r.2)
    | PageResult.ok frags =>
      if frags.isEmpty then ([], [p])
      else
        let r := scrapePages fetch rest
        (frags.filterMap extract_job_info ++ r.1, p :: r.2)

/-- Model of `JobScraper.scrape_jobs`: run the page loop over pages
`1..max_pages`, then filter the accumulated records by unfamiliar skills. -/
def scrape_jobs (fetch : Nat → PageResult) (unfamiliar_skills : List String)
    (max_pages : Nat) : List Job :=
  filter_jobs_by_skills (scrapePages fetch (List.range' 1 max_pages)).1 unfamiliar_skills

/-! Concrete records and fragments used to instantiate the theorems. -/

/-- A record with two skills, as in the spec's filter example. -/
def jobA : Job :=
  { company := "Acme", job_title := "Dev", skills := ["Python", "Go"]
    experience := "2 yrs", salary := "10k", location := "Delhi"
    job_description := "d", posted_date := "today", more_info := "u" }

/-- A record whose single skill contains the unfamiliar entry as a substring. -/
def jobB : Job :=
  { company := "Bcme", job_title := "Web", skills := ["JavaScript"]
    experience := "1 yr", salary := "9k", location := "Pune"
    job_description := "d", posted_date := "today", more_info := "u" }

/-- A record with no skill tokens at all. -/
def jobNoSkills : Job :=
  { company := "Ccme", job_title := "Ops", skills := []
    experience := "3 yrs", salary := "11k", location := "Goa"
    job_description := "d", posted_date := "today", more_info := "u" }

/-- A bare listing fragment in which every field lookup fails. -/
def bareFrag : Node := Node.tag "li" [] []

/-- Detail-list items: a location, a blank middle item, a salary. -/
def detailLi0 : Node := Node.tag "li" [] [Node.text "Mumbai"]

def detailLi1 : Node := Node.tag "li" [] [Node.text "  "]

def detailLi2 : Node := Node.tag "li" [] [Node.text "5k"]

/-- A detail list with exactly three items. -/
def detailUl : Node :=
  Node.tag "ul" [("class", "top-jd-dtl mt-16 clearfix")] [detailLi0, detailLi1, detailLi2]

/-- A fragment holding only the detail list. -/
def fragDetail : Node := Node.tag "li" [] [detailUl]

/-- The record `fragDetail` extracts to. -/
def jobDetail : Job :=
  { company := sentinel, job_title := sentinel, skills := []
    experience := sentinel, salary := "5k", location := "Mumbai"
    job_description := sentinel, posted_date := sentinel, more_info := sentinel }

/-- A skills container whose only child tag is a bold element, not a span. -/
def noSpanSkillsTag : Node := Node.tag "b" [] [Node.text "Rust"]

def noSpanSkillsSection : Node :=
  Node.tag "div" [("class", "more-skills-sections")] [noSpanSkillsTag]

def fragChildTagSkills : Node := Node.tag "li" [] [noSpanSkillsSection]

/-- A skills container with span children Go, SQL, Go (duplicate kept). -/
def spanGo1 : Node := Node.tag "span" [] [Node.text "Go"]

def spanSQL : Node := Node.tag "span" [] [Node.text "SQL"]

def spanGo2 : Node := Node.tag "span" [] [Node.text "Go"]

def skillsSection : Node :=
  Node.tag "div" [("class", "more-skills-sections")] [spanGo1, spanSQL, spanGo2]

def fragSkills : Node := Node.tag "li" [] [skillsSection]

/-- The record `fragSkills` extracts to. -/
def jobGo : Job :=
  { company := sentinel, job_title := sentinel, skills := ["Go", "SQL", "Go"]
    experience := sentinel, salary := sentinel, location := sentinel
    job_description := sentinel, posted_date := sentinel, more_info := sentinel }

/-- A fake fetcher: two fragments on page 1, an empty page 2 and beyond. -/
def fetchC3 : Nat → PageResult := fun p =>
  if p = 1 then PageResult.ok [fragSkills, fragDetail] else PageResult.ok []

/-- A fake fetcher: one fragment on page 1, a fetch error on page 2, one
fragment on every later page. -/
def fetchC4 : Nat → PageResult := fun p =>
  if p = 1 then PageResult.ok [fragSkills]
  else if p = 2 then PageResult.fetchErr
  else PageResult.ok [fragDetail]

/-- A fake fetcher failing on every page. -/
def fetchAllErr : Nat → PageResult := fun _ => PageResult.fetchErr

/-! Lemmas about the skill filter. -/

/-- The source's accumulate-if-clean loop is the stable filter on the
complement of the `has_unfamiliar` test. -/
theorem filter_jobs_eq_filter (jobs : List Job) (uf : List String) :
    filter_jobs_by_skills jobs uf = jobs.filter (fun j => !(hasUnfamiliarSkill j uf)) := by
  induction jobs with
  | nil => rfl
  | cons j rest ih =>
    by_cases h : hasUnfamiliarSkill j uf = true <;>
      simp [filter_jobs_by_skills, List.filter, h, ih]

/-- The code's boolean test agrees with the spec's exclusion predicate. -/
theorem hasUnfamiliarSkill_iff (job : Job) (uf : List String) :
    hasUnfamiliarSkill job uf = true ↔ skillExcluded job uf := by
  simp [hasUnfamiliarSkill, skillExcluded, List.any_eq_true, List.mem_map]

/-- The code's test, written as a decide of the spec predicate. -/
theorem hasUnfamiliarSkill_eq_decide (job : Job) (uf : List String) :
    hasUnfamiliarSkill job uf = decide (skillExcluded job uf) := by
  by_cases h : skillExcluded job uf
  · simp [h, (hasUnfamiliarSkill_iff job uf).mpr h]
  · rw [decide_eq_false h]
    rcases hb : hasUnfamiliarSkill job uf with _ | _
    · rfl
    · exact absurd ((hasUnfamiliarSkill_iff job uf).mp hb) h

/-- An empty pattern occurs in every list. -/
theorem containsSeq_nil (l : List Char) : containsSeq [] l = true := by
  cases l <;> simp [containsSeq, listStartsWith]

/-- C1: for every list of records and every unfamiliar-skills list,
`filter_jobs_by_skills` returns exactly the subsequence of the input records,
in input order and each record unchanged, that the spec's exclusion predicate
rejects no record of; when the unfamiliar list is empty the output is the
whole input. -/
theorem filter_jobs_by_skills_spec (jobs : List Job) (uf : List String) :
    filter_jobs_by_skills jobs uf = jobs.filter (fun j => decide (¬ skillExcluded j uf))
    ∧ (filter_jobs_by_skills jobs uf).Sublist jobs
    ∧ (uf = [] → filter_jobs_by_skills jobs uf = jobs) := by
  refine ⟨?_, ?_, ?_⟩
  · rw [filter_jobs_eq_filter]
    refine List.filter_congr (fun j _ => ?_)
    rw [decide_not, hasUnfamiliarSkill_eq_decide]
  · rw [filter_jobs_eq_filter]
    exact List.filter_sublist _
  · intro h
    subst h
    rw [filter_jobs_eq_filter]
    simp [hasUnfamiliarSkill]

/-- Witness for C1 at concrete inputs: the spec's own example (unfamiliar
skill `java` keeps the Python/Go record, drops the JavaScript record), and the
empty-unfamiliar case passing everything through. -/
theorem filter_jobs_by_skills_spec_witness :
    filter_jobs_by_skills [jobA, jobB] ["java"]
      = [jobA, jobB].filter (fun j => decide (¬ skillExcluded j ["java"]))
    ∧ filter_jobs_by_skills [jobA, jobB] [] = [jobA, jobB] :=
  ⟨(filter_jobs_by_skills_spec [jobA, jobB] ["java"]).1,
   (filter_jobs_by_skills_spec [jobA, jobB] []).2.2 rfl⟩

/-- C9: filtering an already-filtered list with the same unfamiliar skills
again returns the identical list. -/
theorem filter_jobs_by_skills_idempotent (jobs : List Job) (uf : List String) :
    filter_jobs_by_skills (filter_jobs_by_skills jobs uf) uf
      = filter_jobs_by_skills jobs uf := by
  rw [filter_jobs_eq_filter jobs, filter_jobs_eq_filter, List.filter_filter]
  exact List.filter_congr (fun j _ => by rcases hasUnfamiliarSkill j uf with _ | _ <;> rfl)

/-- C10: a record with no skill tokens always survives the filter; and when
some unfamiliar entry trims to the empty string, every record with at least
one skill token is excluded. -/
theorem filter_jobs_by_skills_edge_cases (jobs : List Job) (uf : List String) (j : Job) :
    (j.skills = [] → j ∈ jobs → j ∈ filter_jobs_by_skills jobs uf)
    ∧ ((∃ u ∈ uf, stripStr (lowerStr u) = "") → j.skills ≠ [] →
        j ∉ filter_jobs_by_skills jobs uf) := by
  constructor
  · intro hsk hmem
    rw [filter_jobs_eq_filter]
    refine List.mem_filter.mpr ⟨hmem, ?_⟩
    have h0 : hasUnfamiliarSkill j uf = false := by simp [hasUnfamiliarSkill, hsk]
    simp [h0]
  · rintro ⟨u, hu, hblank⟩ hne
    rw [filter_jobs_eq_filter]
    intro hmem
    have h2 := (List.mem_filter.mp hmem).2
    have htrue : hasUnfamiliarSkill j uf = true := by
      apply (hasUnfamiliarSkill_iff j uf).mpr
      obtain ⟨sk, sks, hske⟩ : ∃ sk sks, j.skills = sk :: sks := by
        rcases hj : j.skills with _ | ⟨a, b⟩
        · exact absurd hj hne
        · exact ⟨a, b, rfl⟩
      refine ⟨u, hu, sk, by simp [hske], ?_⟩
      rw [hblank]
      exact containsSeq_nil (lowerStr sk).data
    simp [htrue] at h2

/-- Witness for C10: the empty-skills record survives an arbitrary unfamiliar
list, and a blank unfamiliar entry drops a record with skills. -/
theorem filter_jobs_by_skills_edge_cases_witness :
    jobNoSkills ∈ filter_jobs_by_skills [jobNoSkills] ["python"]
    ∧ jobA ∉ filter_jobs_by_skills [jobA] [" "] :=
  ⟨(filter_jobs_by_skills_edge_cases [jobNoSkills] ["python"] jobNoSkills).1 rfl
      (by simp),
   (filter_jobs_by_skills_edge_cases [jobA] [" "] jobA).2
      ⟨" ", by simp, by decide⟩ (by decide)⟩

/-! Lemmas about the listing extractor. -/

/-- C2: extraction of a fragment either returns nothing or returns a record
with all nine fields present, each field whose lookup fails holding the
sentinel (the skills field the empty list); no partially-filled record is
possible. -/
theorem extract_job_info_complete (frag : Node) :
    extract_job_info frag = none
    ∨ ∃ j, extract_job_info frag = some j
      ∧ (find frag "h3" (some "joblist-comp-name") = none → j.company = sentinel)
      ∧ (find frag "h2" (some "heading-trun") = none → j.job_title = sentinel)
      ∧ (find frag "div" (some "more-skills-sections") = none → j.skills = [])
      ∧ (find frag "ul" (some "top-jd-dtl mt-16 clearfix") = none →
          j.experience = sentinel ∧ j.salary = sentinel ∧ j.location = sentinel)
      ∧ (find frag "span" (some "sim-posted") = none → j.posted_date = sentinel)
      ∧ (∀ pe, find frag "span" (some "sim-posted") = some pe →
          find pe "span" none = none → j.posted_date = sentinel)
      ∧ (find frag "a" none = none → j.more_info = sentinel)
      ∧ (∀ a, find frag "a" none = some a → getAttr a "href" = none →
          j.more_info = sentinel)
      ∧ (find frag "li" (some "job-description__") = none →
          j.job_description = sentinel) := by
  refine Or.inr ⟨_, rfl, ?_, ?_, ?_, ?_, ?_, ?_, ?_, ?_, ?_⟩
  · intro h; simp [companyOf, h]
  · intro h; simp [titleOf, h]
  · intro h; simp [skillsOf, h]
  · intro h
    refine ⟨?_, ?_, ?_⟩ <;> simp [detailOf, h]
  · intro h; simp [postedOf, h]
  · intro pe hpe h; simp [postedOf, hpe, h]
  · intro h; simp [moreInfoOf, h]
  · intro a ha h; simp [moreInfoOf, ha, h]
  · intro h; simp [descriptionOf, h]

/-- Witness for C2: on a bare fragment every lookup fails and extraction
yields the fully-sentinelled record, not nothing and not a partial record. -/
theorem extract_job_info_complete_witness :
    ∃ j, extract_job_info bareFrag = some j
      ∧ j.company = sentinel ∧ j.job_title = sentinel ∧ j.skills = ([] : List String)
      ∧ j.experience = sentinel ∧ j.salary = sentinel ∧ j.location = sentinel
      ∧ j.posted_date = sentinel ∧ j.more_info = sentinel
      ∧ j.job_description = sentinel := by
  rcases extract_job_info_complete bareFrag with h | ⟨j, hj, h1, h2, h3, h4, h5, _, h7, _, h9⟩
  · exact absurd h (by simp [extract_job_info])
  · exact ⟨j, hj, h1 rfl, h2 rfl, h3 rfl, (h4 rfl).1, (h4 rfl).2.1, (h4 rfl).2.2,
      h5 rfl, h7 rfl, h9 rfl⟩

/-- C7: the three detail fields come from the detail list only when it has at
least three items; an absent or short list leaves all three at the sentinel,
and with three or more items each position independently falls back to the
sentinel when its trimmed text is blank. -/
theorem extract_detail_fields_spec (frag : Node) (j : Job)
    (hj : extract_job_info frag = some j) :
    (find frag "ul" (some "top-jd-dtl mt-16 clearfix") = none →
      j.experience = sentinel ∧ j.salary = sentinel ∧ j.location = sentinel)
    ∧ (∀ ul, find frag "ul" (some "top-jd-dtl mt-16 clearfix") = some ul →
        (findAll ul "li" none).length < 3 →
        j.experience = sentinel ∧ j.salary = sentinel ∧ j.location = sentinel)
    ∧ (∀ ul l0 l1 l2 rest, find frag "ul" (some "top-jd-dtl mt-16 clearfix") = some ul →
        findAll ul "li" none = l0 :: l1 :: l2 :: rest →
        j.location
            = (if stripStr (nodeText l0) = "" then sentinel else stripStr (nodeText l0))
        ∧ j.experience
            = (if stripStr (nodeText l1) = "" then sentinel else stripStr (nodeText l1))
        ∧ j.salary
            = (if stripStr (nodeText l2) = "" then sentinel else stripStr (nodeText l2))) := by
  simp only [extract_job_info, Option.some.injEq] at hj
  subst hj
  refine ⟨?_, ?_, ?_⟩
  · intro h
    refine ⟨?_, ?_, ?_⟩ <;> simp [detailOf, h]
  · intro ul hul hlen
    rcases hli : findAll ul "li" none with _ | ⟨a, _ | ⟨b, _ | ⟨c, t⟩⟩⟩
    · refine ⟨?_, ?_, ?_⟩ <;> simp [detailOf, hul, hli]
    · refine ⟨?_, ?_, ?_⟩ <;> simp [detailOf, hul, hli]
    · refine ⟨?_, ?_, ?_⟩ <;> simp [detailOf, hul, hli]
    · exfalso
      rw [hli] at hlen
      simp at hlen
      omega
  · intro ul l0 l1 l2 rest hul hli
    refine ⟨?_, ?_, ?_⟩ <;> simp [detailOf, hul, hli, orNA]

/-- Witness for C7 at a concrete fragment: a three-item detail list with a
blank middle item gives location from item 0, the sentinel for experience,
and salary from item 2. -/
theorem extract_detail_fields_spec_witness :
    jobDetail.location
        = (if stripStr (nodeText detailLi0) = "" then sentinel
           else stripStr (nodeText detailLi0))
    ∧ jobDetail.experience
        = (if stripStr (nodeText detailLi1) = "" then sentinel
           else stripStr (nodeText detailLi1))
    ∧ jobDetail.salary
        = (if stripStr (nodeText detailLi2) = "" then sentinel
           else stripStr (nodeText detailLi2)) :=
  (extract_detail_fields_spec fragDetail jobDetail rfl).2.2
    detailUl detailLi0 detailLi1 detailLi2 [] rfl rfl

/-- Counterexample to C8 as stated: a skills container whose only child tag is
a bold element with text Rust exists, yet extraction yields no skill token at
all — a child tag that is not a span yields nothing. -/
theorem extract_skills_child_tag_cex :
    find fragChildTagSkills "div" (some "more-skills-sections") = some noSpanSkillsSection
    ∧ (childTags noSpanSkillsSection).map (fun t => stripStr (nodeText t)) = ["Rust"]
    ∧ (extract_job_info fragChildTagSkills).map Job.skills = some []
    ∧ (extract_job_info fragChildTagSkills).map Job.skills ≠ some ["Rust"] :=
  ⟨rfl, rfl, rfl, by decide⟩

/-- C8 as amended: when the skills container exists, the skill tokens are
exactly the trimmed texts of its span descendants (any depth), duplicates and
order preserved; when it is absent, skills is empty. -/
theorem extract_skills_span_descendants (frag : Node) (j : Job)
    (hj : extract_job_info frag = some j) :
    (find frag "div" (some "more-skills-sections") = none → j.skills = [])
    ∧ (∀ sec, find frag "div" (some "more-skills-sections") = some sec →
        j.skills = (findAll sec "span" none).map (fun sk => stripStr (nodeText sk))) := by
  simp only [extract_job_info, Option.some.injEq] at hj
  subst hj
  constructor
  · intro h; simp [skillsOf, h]
  · intro sec hsec; simp [skillsOf, hsec]

/-- Witness for C8's amended statement: span children Go, SQL, Go yield the
tokens Go, SQL, Go with the duplicate and the order preserved. -/
theorem extract_skills_span_descendants_witness :
    jobGo.skills = (findAll skillsSection "span" none).map (fun sk => stripStr (nodeText sk))
    ∧ jobGo.skills = ["Go", "SQL", "Go"] :=
  ⟨(extract_skills_span_descendants fragSkills jobGo rfl).2 skillsSection rfl, rfl⟩

/-! Lemmas about the pagination controller. -/

/-- Once some page at or ahead of the loop's position returns an empty
success, no later page is ever fetched: the loop over `range' a len` with
`a ≤ N` and `fetch N` empty never logs a page past `N`. -/
theorem scrapePages_stops_at_empty (fetch : Nat → PageResult) (N M : Nat)
    (hN : fetch N = PageResult.ok []) (hM : N < M) :
    ∀ len a, a ≤ N → M ∉ (scrapePages fetch (List.range' a len)).2 := by
  intro len
  induction len with
  | zero => intro a _; simp [scrapePages]
  | succ n ih =>
    intro a ha
    rw [List.range'_succ a n 1]
    by_cases hea : a = N
    · subst hea
      simp [scrapePages, hN]
      omega
    · have ha' : a + 1 ≤ N := by omega
      have hMa : M ≠ a := by omega
      rcases hf : fetch a with _ | _ | frags
      · simpa [scrapePages, hf, hMa] using ih (a + 1) ha'
      · simpa [scrapePages, hf, hMa] using ih (a + 1) ha'
      · rcases he : frags.isEmpty
        · simpa [scrapePages, hf, he, hMa] using ih (a + 1) ha'
        · simp [scrapePages, hf, he]
          omega

/-- C3: a successful page with zero fragments stops pagination — no page
beyond it is ever fetched, even below the page bound — and in the spec's
concrete scenario (two fragments on page 1, none on page 2, five pages
allowed) the loop returns exactly the two records of page 1 and fetches only
pages 1 and 2. -/
theorem pagination_stops_on_empty_page (fetch : Nat → PageResult)
    (max_pages N : Nat) (f1 f2 : Node) (r1 r2 : Job) :
    (1 ≤ N → fetch N = PageResult.ok [] →
      ∀ M, N < M → M ∉ (scrapePages fetch (List.range' 1 max_pages)).2)
    ∧ (fetch 1 = PageResult.ok [f1, f2] → fetch 2 = PageResult.ok [] →
      extract_job_info f1 = some r1 → extract_job_info f2 = some r2 →
      scrapePages fetch (List.range' 1 5) = ([r1, r2], [1, 2])) := by
  constructor
  · intro h1 hN M hM
    exact scrapePages_stops_at_empty fetch N M hN hM max_pages 1 h1
  · intro h1 h2 hr1 hr2
    show scrapePages fetch (1 :: 2 :: List.range' 3 3) = ([r1, r2], [1, 2])
    simp [scrapePages, h1, h2, hr1, hr2]

/-- Witness for C3 at a concrete fetcher: page 2 empty stops the loop, page 3
is never fetched, and only the two page-1 records come back. -/
theorem pagination_stops_on_empty_page_witness :
    3 ∉ (scrapePages fetchC3 (List.range' 1 5)).2
    ∧ scrapePages fetchC3 (List.range' 1 5) = ([jobGo, jobDetail], [1, 2]) :=
  ⟨(pagination_stops_on_empty_page fetchC3 5 2 fragSkills fragDetail jobGo jobDetail).1
      (by omega) rfl 3 (by omega),
   (pagination_stops_on_empty_page fetchC3 5 2 fragSkills fragDetail jobGo jobDetail).2
      rfl rfl rfl rfl⟩

/-- C4: a fetch error on a page never terminates the run — the page is logged
but contributes nothing, and the loop continues with the remaining pages; in
the spec's concrete scenario (an error on page 2 only, one fragment each on
pages 1 and 3, three pages allowed) the loop returns the two records of
pages 1 and 3 and fetches all three pages. -/
theorem pagination_skips_fetch_errors (fetch : Nat → PageResult) (p : Nat)
    (rest : List Nat) (f1 f3 : Node) (r1 r3 : Job) :
    (fetch p = PageResult.fetchErr →
      scrapePages fetch (p :: rest)
        = ((scrapePages fetch rest).1, p :: (scrapePages fetch rest).2))
    ∧ (fetch 1 = PageResult.ok [f1] → fetch 2 = PageResult.fetchErr →
      fetch 3 = PageResult.ok [f3] →
      extract_job_info f1 = some r1 → extract_job_info f3 = some r3 →
      scrapePages fetch (List.range' 1 3) = ([r1, r3], [1, 2, 3])) := by
  constructor
  · intro h
    simp [scrapePages, h]
  · intro h1 h2 h3 hr1 hr3
    show scrapePages fetch (1 :: 2 :: 3 :: []) = ([r1, r3], [1, 2, 3])
    simp [scrapePages, h1, h2, h3, hr1, hr3]

/-- Witness for C4 at a concrete fetcher: the error page 2 is skipped, pages 1
and 3 contribute their records. -/
theorem pagination_skips_fetch_errors_witness :
    scrapePages fetchC4 (2 :: [3])
      = ((scrapePages fetchC4 [3]).1, 2 :: (scrapePages fetchC4 [3]).2)
    ∧ scrapePages fetchC4 (List.range' 1 3) = ([jobGo, jobDetail], [1, 2, 3]) :=
  ⟨(pagination_skips_fetch_errors fetchC4 2 [3] fragSkills fragDetail jobGo jobDetail).1 rfl,
   (pagination_skips_fetch_errors fetchC4 2 [3] fragSkills fragDetail jobGo jobDetail).2
      rfl rfl rfl rfl rfl⟩

/-- When every page fails or is empty, the loop accumulates no record. -/
theorem scrapePages_jobs_nil (fetch : Nat → PageResult)
    (h : ∀ p, fetch p = PageResult.fetchErr ∨ fetch p = PageResult.parseErr
      ∨ fetch p = PageResult.ok []) :
    ∀ ps : List Nat, (scrapePages fetch ps).1 = [] := by
  intro ps
  induction ps with
  | nil => rfl
  | cons p rest ih => rcases h p with h' | h' | h' <;> simp [scrapePages, h', ih]

/-- C5: the pipeline entry point is a total function of the fetch outcomes —
whatever combination of fetch errors, parse errors, extraction failures and
empty pages occurs, it returns the filtered accumulator (a plain list, never
an exception), and when every page fails or is empty it returns the empty
list. -/
theorem scrape_jobs_total_worst_case_empty (fetch : Nat → PageResult)
    (unfamiliar_skills : List String) (max_pages : Nat) :
    (∃ jobs : List Job,
      scrape_jobs fetch unfamiliar_skills max_pages
        = filter_jobs_by_skills jobs unfamiliar_skills)
    ∧ ((∀ p, fetch p = PageResult.fetchErr ∨ fetch p = PageResult.parseErr
        ∨ fetch p = PageResult.ok []) →
      scrape_jobs fetch unfamiliar_skills max_pages = []) := by
  constructor
  · exact ⟨(scrapePages fetch (List.range' 1 max_pages)).1, rfl⟩
  · intro h
    show filter_jobs_by_skills _ _ = []
    rw [scrapePages_jobs_nil fetch h]
    rfl

/-- Witness for C5: with every page failing, three pages allowed, the pipeline
returns the empty list. -/
theorem scrape_jobs_total_worst_case_empty_witness :
    scrape_jobs fetchAllErr [] 3 = [] :=
  (scrape_jobs_total_worst_case_empty fetchAllErr [] 3).2 (fun _ => Or.inl rfl)

/-! Lemmas about occurrence counting, toward the URL builder claim. -/

/-- Occurrences in a concatenation: those starting inside the first part plus
those inside the second. -/
theorem countPat_append (pat A B : List Char) :
    countPat pat (A ++ B) = countIn pat A B + countPat pat B := by
  induction A with
  | nil => simp [countIn]
  | cons a as ih =>
    show countPat pat (a :: (as ++ B)) = _
    rw [countPat, countIn, ih]
    simp only [List.cons_append]
    omega

/-- A matched pattern's characters all occur in the matched list. -/
theorem listStartsWith_mem (pat l : List Char) (h : listStartsWith pat l = true) :
    ∀ c ∈ pat, c ∈ l := by
  induction pat generalizing l with
  | nil => simp
  | cons p ps ih =>
    rcases l with _ | ⟨b, bs⟩
    · simp [listStartsWith] at h
    · rw [listStartsWith, Bool.and_eq_true, beq_iff_eq] at h
      intro c hc
      rcases List.mem_cons.mp hc with hc | hc
      · exact List.mem_cons.mpr (Or.inl (hc.trans h.1))
      · exact List.mem_cons.mpr (Or.inr (ih bs h.2 c hc))

/-- A pattern holding a character the list lacks never occurs. -/
theorem countPat_zero_of_missing (pat l : List Char) (c : Char)
    (hc : c ∈ pat) (hl : c ∉ l) : countPat pat l = 0 := by
  induction l with
  | nil =>
    rcases pat with _ | ⟨p, ps⟩
    · simp at hc
    · simp [countPat, listStartsWith]
  | cons b bs ih =>
    rw [countPat]
    have h1 : listStartsWith pat (b :: bs) = false := by
      rcases h : listStartsWith pat (b :: bs)
      · rfl
      · exact absurd (listStartsWith_mem pat (b :: bs) h c hc) hl
    rw [h1]
    simp [ih (fun hmem => hl (List.mem_cons.mpr (Or.inr hmem)))]

/-- Alignment at an equals sign: a pattern `pre ++ '=' :: post` with
equals-free `pre` matches an equals-free block `d` followed by a separator
exactly when the block is `pre` and `post` matches past the separator. -/
theorem startsWith_align : ∀ pre post d W : List Char, '=' ∉ pre → '=' ∉ d →
    (listStartsWith (pre ++ '=' :: post) (d ++ '=' :: W) = true
      ↔ d = pre ∧ listStartsWith post W = true) := by
  intro pre
  induction pre with
  | nil =>
    intro post d W _ hd
    rcases d with _ | ⟨x, xs⟩
    · simp [listStartsWith]
    · have hx : x ≠ '=' := fun h => hd (h ▸ List.mem_cons_self x xs)
      have hb : ('=' == x) = false := beq_eq_false_iff_ne.mpr (fun h => hx h.symm)
      simp [listStartsWith, hb]
  | cons pc ps ih =>
    intro post d W hpre hd
    have hpc : pc ≠ '=' := fun h => hpre (h ▸ List.mem_cons_self pc ps)
    have hp' : '=' ∉ ps := fun h => hpre (List.mem_cons.mpr (Or.inr h))
    rcases d with _ | ⟨x, xs⟩
    · have hb : (pc == '=') = false := beq_eq_false_iff_ne.mpr hpc
      simp [listStartsWith, hb]
    · have hd' : '=' ∉ xs := fun h => hd (List.mem_cons.mpr (Or.inr h))
      show ((pc == x) && listStartsWith (ps ++ '=' :: post) (xs ++ '=' :: W)) = true ↔ _
      rw [Bool.and_eq_true, beq_iff_eq, ih post xs W hp' hd']
      constructor
      · rintro ⟨h1, h2, h3⟩
        exact ⟨by rw [h1, h2], h3⟩
      · rintro ⟨h1, h3⟩
        injection h1 with e1 e2
        exact ⟨e1.symm, e2, h3⟩

/-- An equals-free pattern matches across a separator exactly when it matches
the part before the separator. -/
theorem startsWith_past_sep : ∀ post b t : List Char, '=' ∉ post →
    listStartsWith post (b ++ '=' :: t) = listStartsWith post b := by
  intro post
  induction post with
  | nil => intro b t _; rcases b <;> simp [listStartsWith]
  | cons p ps ih =>
    intro b t hpost
    have hp : p ≠ '=' := fun h => hpost (h ▸ List.mem_cons_self p ps)
    have hb : (p == '=') = false := beq_eq_false_iff_ne.mpr hp
    rcases b with _ | ⟨x, xs⟩
    · simp [listStartsWith, hb]
    · simp only [List.cons_append, listStartsWith, List.append_eq]
      rw [ih xs t (fun h => hpost (List.mem_cons.mpr (Or.inr h)))]

/-- A trailing segment is no longer than the list. -/
theorem listEndsWith_length (p : List Char) : ∀ l, listEndsWith p l = true →
    p.length ≤ l.length := by
  intro l
  induction l with
  | nil =>
    intro h
    rcases p with _ | _
    · simp
    · simp [listEndsWith] at h
  | cons b bs ih =>
    intro h
    rw [listEndsWith, Bool.or_eq_true, beq_iff_eq] at h
    rcases h with h | h
    · simp [h]
    · have := ih h
      simp
      omega

/-- A non-empty list is no trailing segment of the empty list. -/
theorem listEndsWith_nil_false (p : List Char) (hp : p ≠ []) :
    listEndsWith p [] = false := by
  rcases p with _ | _
  · exact absurd rfl hp
  · simp [listEndsWith]

/-- Occurrences starting inside an equals-free block right before a separator:
exactly one when the block ends with `pre` and `post` follows the separator,
none otherwise. -/
theorem countIn_sep (pre post : List Char) (hp : pre ≠ []) (hpre : '=' ∉ pre) :
    ∀ A W, '=' ∉ A →
    countIn (pre ++ '=' :: post) A ('=' :: W)
      = if listEndsWith pre A && listStartsWith post W then 1 else 0 := by
  intro A
  induction A with
  | nil => intro W _; simp [countIn, listEndsWith_nil_false pre hp]
  | cons a as ih =>
    intro W hA
    have hA' : '=' ∉ as := fun h => hA (List.mem_cons.mpr (Or.inr h))
    rw [countIn, ih W hA']
    have halign := startsWith_align pre post (a :: as) W hpre hA
    rw [listEndsWith]
    rcases hsw : listStartsWith post W with _ | _
    · rw [hsw] at halign
      simp only [Bool.and_false, if_false]
      have h0 : listStartsWith (pre ++ '=' :: post) ((a :: as) ++ '=' :: W) = false := by
        rcases hq : listStartsWith (pre ++ '=' :: post) ((a :: as) ++ '=' :: W)
        · rfl
        · rcases halign.mp hq with ⟨_, h2⟩
          cases h2
      rw [h0]
      simp
    · simp only [Bool.and_true]
      by_cases hcons : (a :: as) = pre
      · have h1 : listStartsWith (pre ++ '=' :: post) ((a :: as) ++ '=' :: W) = true :=
          halign.mpr ⟨hcons, hsw⟩
        have h2 : listEndsWith pre as = false := by
          rcases hq : listEndsWith pre as
          · rfl
          · have := listEndsWith_length pre as hq
            rw [← hcons] at this
            simp at this
        have h3 : (pre == a :: as) = true := beq_iff_eq.mpr hcons.symm
        rw [h1, h2, h3]
        simp
      · have h1 : listStartsWith (pre ++ '=' :: post) ((a :: as) ++ '=' :: W) = false := by
          rcases hq : listStartsWith (pre ++ '=' :: post) ((a :: as) ++ '=' :: W)
          · rfl
          · exact absurd (halign.mp hq).1 hcons
        have h3 : (pre == a :: as) = false :=
          beq_eq_false_iff_ne.mpr (fun h => hcons h.symm)
        rw [h1, h3]
        simp

/-- A pattern built around a separator never matches the empty list. -/
theorem startsWith_pat_nil (pre post : List Char) (hp : pre ≠ []) :
    listStartsWith (pre ++ '=' :: post) [] = false := by
  rcases pre with _ | ⟨pc, ps⟩
  · exact absurd rfl hp
  · rfl

/-- Counting occurrences in a separator-joined list of equals-free segments:
every occurrence sits at a segment boundary, so the count is the number of
boundary pairs ending with `pre` and continuing with `post`. -/
theorem countPat_sepJoin : ∀ (segs : List (List Char)) (pre post : List Char),
    pre ≠ [] → '=' ∉ pre → '=' ∉ post → (∀ s ∈ segs, '=' ∉ s) →
    countPat (pre ++ '=' :: post) (sepJoin segs) = pairCount pre post segs := by
  intro segs
  induction segs with
  | nil =>
    intro pre post hp hpre hpost _
    simp [sepJoin, countPat, startsWith_pat_nil pre post hp, pairCount]
  | cons a rest ih =>
    intro pre post hp hpre hpost hsegs
    rcases rest with _ | ⟨b, rest'⟩
    · show countPat (pre ++ '=' :: post) a = pairCount pre post [a]
      rw [countPat_zero_of_missing (pre ++ '=' :: post) a '='
        (List.mem_append.mpr (Or.inr (List.mem_cons_self _ _)))
        (hsegs a (List.mem_cons_self _ _))]
      rfl
    · have hW : countPat (pre ++ '=' :: post) ('=' :: sepJoin (b :: rest'))
          = pairCount pre post (b :: rest') := by
        rw [countPat]
        have h0 : listStartsWith (pre ++ '=' :: post)
            ('=' :: sepJoin (b :: rest')) = false := by
          rcases pre with _ | ⟨pc, ps⟩
          · exact absurd rfl hp
          · have hpc : pc ≠ '=' := fun h => hpre (h ▸ List.mem_cons_self pc ps)
            have hb : (pc == '=') = false := beq_eq_false_iff_ne.mpr hpc
            simp [List.cons_append, listStartsWith, hb]
        rw [h0]
        have := ih pre post hp hpre hpost
          (fun s hs => hsegs s (List.mem_cons.mpr (Or.inr hs)))
        simp [this]
      show countPat (pre ++ '=' :: post) (a ++ '=' :: sepJoin (b :: rest')) = _
      rw [countPat_append, hW,
        countIn_sep pre post hp hpre a (sepJoin (b :: rest'))
          (hsegs a (List.mem_cons_self _ _))]
      have hsw : listStartsWith post (sepJoin (b :: rest'))
          = listStartsWith post b := by
        rcases rest' with _ | ⟨c, rest''⟩
        · rfl
        · exact startsWith_past_sep post b (sepJoin (c :: rest'')) hpost
      rw [hsw]
      rfl

/-- Hexadecimal digits are neither an equals sign nor an ampersand. -/
theorem hexDigit_ne (n : Nat) : hexDigit n ≠ '=' ∧ hexDigit n ≠ '&' := by
  unfold hexDigit
  split <;> exact ⟨by decide, by decide⟩

/-- Quoting one character never emits an equals sign. -/
theorem quoteChar_no_eq (c : Char) : '=' ∉ quoteChar c := by
  unfold quoteChar
  split
  · simp
  · split
    · rename_i hsafe
      intro hm
      rw [List.mem_singleton] at hm
      rw [← hm] at hsafe
      exact absurd hsafe (by decide)
    · intro hm
      rw [List.mem_flatMap] at hm
      obtain ⟨b, _, hb⟩ := hm
      rcases List.mem_cons.mp hb with h1 | h1
      · exact absurd h1 (by decide)
      rcases List.mem_cons.mp h1 with h2 | h2
      · exact (hexDigit_ne _).1 h2.symm
      rcases List.mem_cons.mp h2 with h3 | h3
      · exact (hexDigit_ne _).1 h3.symm
      · simp at h3

/-- Quoting one character never emits an ampersand. -/
theorem quoteChar_no_amp (c : Char) : '&' ∉ quoteChar c := by
  unfold quoteChar
  split
  · simp
  · split
    · rename_i hsafe
      intro hm
      rw [List.mem_singleton] at hm
      rw [← hm] at hsafe
      exact absurd hsafe (by decide)
    · intro hm
      rw [List.mem_flatMap] at hm
      obtain ⟨b, _, hb⟩ := hm
      rcases List.mem_cons.mp hb with h1 | h1
      · exact absurd h1 (by decide)
      rcases List.mem_cons.mp h1 with h2 | h2
      · exact (hexDigit_ne _).2 h2.symm
      rcases List.mem_cons.mp h2 with h3 | h3
      · exact (hexDigit_ne _).2 h3.symm
      · simp at h3

/-- A quoted value contains no equals sign. -/
theorem quote_plus_no_eq (s : String) : '=' ∉ (quote_plus s).data := by
  intro hm
  rw [show (quote_plus s).data = s.data.flatMap quoteChar from rfl,
    List.mem_flatMap] at hm
  obtain ⟨c, _, hc⟩ := hm
  exact quoteChar_no_eq c hc

/-- A quoted value contains no ampersand. -/
theorem quote_plus_no_amp (s : String) : '&' ∉ (quote_plus s).data := by
  intro hm
  rw [show (quote_plus s).data = s.data.flatMap quoteChar from rfl,
    List.mem_flatMap] at hm
  obtain ⟨c, _, hc⟩ := hm
  exact quoteChar_no_amp c hc

/-- Digit characters below ten render as decimal digits. -/
theorem digitChar_digit (m : Nat) (h : m < 10) : (Nat.digitChar m).isDigit = true := by
  interval_cases m <;> decide

/-- Base-ten digit rendering produces only decimal digits. -/
theorem toDigitsCore_digits : ∀ (fuel n : Nat) (ds : List Char),
    (∀ c ∈ ds, c.isDigit = true) →
    ∀ c ∈ Nat.toDigitsCore 10 fuel n ds, c.isDigit = true := by
  intro fuel
  induction fuel with
  | zero => intro n ds hds; exact hds
  | succ f ih =>
    intro n ds hds c hc
    rw [Nat.toDigitsCore] at hc
    have hdig : ∀ x ∈ Nat.digitChar (n % 10) :: ds, x.isDigit = true := by
      intro x hx
      rcases List.mem_cons.mp hx with hx | hx
      · rw [hx]; exact digitChar_digit _ (Nat.mod_lt _ (by omega))
      · exact hds x hx
    by_cases hzero : n / 10 = 0
    · rw [if_pos hzero] at hc
      exact hdig c hc
    · rw [if_neg hzero] at hc
      exact ih (n / 10) _ hdig c hc

/-- Decimal rendering of a number consists of decimal digits. -/
theorem repr_digits (n : Nat) : ∀ c ∈ (Nat.repr n).data, c.isDigit = true := by
  show ∀ c ∈ Nat.toDigits 10 n, c.isDigit = true
  exact toDigitsCore_digits (n + 1) n [] (by simp)

/-- A decimal digit is safe and quotes to itself. -/
theorem quoteChar_digit (c : Char) (h : c.isDigit = true) : quoteChar c = [c] := by
  have h1 : ¬(c = ' ') := by
    intro e
    rw [e] at h
    exact absurd h (by decide)
  have h2 : isSafeChar c = true := by simp [isSafeChar, h]
  simp [quoteChar, h1, h2]

/-- A string of decimal digits quotes to itself. -/
theorem quote_plus_digits (s : String) (h : ∀ c ∈ s.data, c.isDigit = true) :
    quote_plus s = s := by
  obtain ⟨l⟩ := s
  show String.mk (l.flatMap quoteChar) = String.mk l
  congr 1
  induction l with
  | nil => rfl
  | cons c cs ih =>
    rw [List.flatMap_cons, quoteChar_digit c (h c (List.mem_cons_self _ _)),
      ih (fun x hx => h x (List.mem_cons.mpr (Or.inr hx)))]
    rfl

/-- The URL splits at its equals signs into the `urlSegs` segments. -/
theorem url_decomp (search_query location : String) (page : Nat) :
    (build_search_url search_query location page).data
      = sepJoin (urlSegs search_query location page) := by
  by_cases hl : location = "" <;>
    simp [build_search_url, searchParams, urlSegs, hl, joinAmp, sepJoin,
      String.data_append, List.append_assoc, List.singleton_append,
      show ("=" : String).data = ['='] from rfl]

/-- Every list is a leading segment of itself extended. -/
theorem startsWith_append_self : ∀ p z : List Char, listStartsWith p (p ++ z) = true := by
  intro p z
  induction p with
  | nil => rfl
  | cons a as ih => simp [listStartsWith, ih]

/-- Every list is a trailing segment of itself prefixed. -/
theorem listEndsWith_append_self : ∀ z y : List Char, listEndsWith y (z ++ y) = true := by
  intro z y
  induction z with
  | nil =>
    rcases y with _ | ⟨b, bs⟩
    · rfl
    · simp [listEndsWith]
  | cons a z' ih =>
    show listEndsWith y (a :: (z' ++ y)) = true
    rw [listEndsWith]
    simp [ih]

/-- A trailing-segment test that fits inside the right part ignores the left part. -/
theorem listEndsWith_append_right (pre : List Char) :
    ∀ x y : List Char, pre.length ≤ y.length →
    listEndsWith pre (x ++ y) = listEndsWith pre y := by
  intro x
  induction x with
  | nil => intro y _; rfl
  | cons a x' ih =>
    intro y hlen
    show listEndsWith pre (a :: (x' ++ y)) = _
    rw [listEndsWith]
    have hne : (pre == a :: (x' ++ y)) = false := by
      rw [beq_eq_false_iff_ne]
      intro e
      have : pre.length = (a :: (x' ++ y)).length := by rw [e]
      simp at this
      omega
    rw [hne, ih y hlen]
    simp

/-- A trailing segment of full length is the whole list. -/
theorem listEndsWith_eq_of_length : ∀ l p : List Char,
    listEndsWith p l = true → p.length = l.length → p = l := by
  intro l
  induction l with
  | nil =>
    intro p h _
    rcases p with _ | _
    · rfl
    · simp [listEndsWith] at h
  | cons b bs ih =>
    intro p h hlen
    rw [listEndsWith, Bool.or_eq_true, beq_iff_eq] at h
    rcases h with h | h
    · exact h
    · have := listEndsWith_length p bs h
      simp at hlen
      omega

/-- When a list ends with `pre` and also with `y`, the shorter `y` is a trailing segment of `pre`. -/
theorem listEndsWith_transfer (pre : List Char) : ∀ x y : List Char,
    listEndsWith pre (x ++ y) = true → y.length ≤ pre.length →
    listEndsWith y pre = true := by
  intro x
  induction x with
  | nil =>
    intro y h hlen
    have h1 := listEndsWith_length pre y h
    have h2 : pre = y := listEndsWith_eq_of_length y pre h (by omega)
    rw [h2]
    exact listEndsWith_append_self [] y
  | cons a x' ih =>
    intro y h hlen
    rw [show (a :: x') ++ y = a :: (x' ++ y) from rfl, listEndsWith,
      Bool.or_eq_true, beq_iff_eq] at h
    rcases h with h | h
    · rw [h]
      exact listEndsWith_append_self (a :: x') y
    · exact ih y h hlen



/-- A quoted value followed by an equals-free tail is equals-free. -/
theorem no_eq_concat (x : String) (y : List Char) (hy : '=' ∉ y) :
    '=' ∉ (quote_plus x).data ++ y := by
  intro h
  rcases List.mem_append.mp h with h | h
  · exact quote_plus_no_eq x h
  · exact hy h

/-- Every segment of the URL decomposition is free of equals signs. -/
theorem urlSegs_no_eq (q l : String) (p : Nat) : ∀ s ∈ urlSegs q l p, '=' ∉ s := by
  intro s hs
  simp only [urlSegs] at hs
  rcases List.mem_append.mp hs with hs | hs
  · simp only [List.mem_cons, List.not_mem_nil, or_false] at hs
    rcases hs with rfl | rfl | rfl | rfl | rfl | rfl | rfl | rfl | rfl | rfl | rfl
    · decide
    · decide
    · decide
    · exact no_eq_concat q _ (by decide)
    · decide
    · decide
    · exact no_eq_concat q _ (by decide)
    · decide
    · decide
    · decide
    · exact no_eq_concat (Nat.repr p) _ (by decide)
  · by_cases hl : l = ""
    · rw [if_pos hl] at hs
      simp only [List.mem_cons, List.not_mem_nil, or_false] at hs
      rw [hs]
      decide
    · rw [if_neg hl] at hs
      simp only [List.mem_cons, List.not_mem_nil, or_false] at hs
      rcases hs with rfl | rfl
      · decide
      · exact quote_plus_no_eq l

/-- C6: for all inputs, the URL built by `build_search_url` contains
`sequence=<page>` exactly once, and contains the `txtLocation` parameter
(the substring `&txtLocation=`) exactly once when the location is non-empty
and not at all when it is empty; determinism holds because the builder is a
function with a fixed parameter order. -/
theorem build_search_url_spec (q l : String) (p : Nat) :
    countPat ("sequence=".data ++ (Nat.repr p).data) (build_search_url q l p).data = 1
    ∧ countPat "&txtLocation=".data (build_search_url q l p).data
        = (if l = "" then 0 else 1) := by
  have hpost1 : '=' ∉ (Nat.repr p).data := by
    intro h
    exact absurd (repr_digits p '=' h) (by decide)
  have hsegs := urlSegs_no_eq q l p
  have c0 : listEndsWith "sequence".data
      (base_url.data ++ ("?".data ++ "from".data)) = false := by decide
  have c1 : listEndsWith "sequence".data
      ((quote_plus "submit").data ++ ("&".data ++ "luceneResultSize".data)) = false := by
    decide
  have c2 : listEndsWith "sequence".data
      ((quote_plus "25").data ++ ("&".data ++ "txtKeywords".data)) = false := by decide
  have c3 : listEndsWith "sequence".data
      ((quote_plus q).data ++ ("&".data ++ "postWeek".data)) = false := by
    rw [listEndsWith_append_right "sequence".data (quote_plus q).data
      ("&".data ++ "postWeek".data) (by decide)]
    decide
  have c4 : listEndsWith "sequence".data
      ((quote_plus "60").data ++ ("&".data ++ "searchType".data)) = false := by decide
  have c5 : listEndsWith "sequence".data
      ((quote_plus "personalizedSearch").data
        ++ ("&".data ++ "actualTxtKeywords".data)) = false := by decide
  have c6 : listEndsWith "sequence".data
      ((quote_plus q).data ++ ("&".data ++ "searchBy".data)) = false := by
    rw [listEndsWith_append_right "sequence".data (quote_plus q).data
      ("&".data ++ "searchBy".data) (by decide)]
    decide
  have c7 : listEndsWith "sequence".data
      ((quote_plus "0").data ++ ("&".data ++ "rdoOperator".data)) = false := by decide
  have c8 : listEndsWith "sequence".data
      ((quote_plus "OR").data ++ ("&".data ++ "pDate".data)) = false := by decide
  have c9 : listEndsWith "sequence".data
      ((quote_plus "I").data ++ ("&".data ++ "sequence".data)) = true := by decide
  have c10 : listEndsWith "sequence".data
      ((quote_plus (Nat.repr p)).data ++ ("&".data ++ "startPage".data)) = false := by
    rw [listEndsWith_append_right "sequence".data (quote_plus (Nat.repr p)).data
      ("&".data ++ "startPage".data) (by decide)]
    decide
  have c11a : listEndsWith "sequence".data (quote_plus "1").data = false := by decide
  have c11b : listEndsWith "sequence".data
      ((quote_plus "1").data ++ ("&".data ++ "txtLocation".data)) = false := by decide
  have g9 : listStartsWith (Nat.repr p).data
      ((quote_plus (Nat.repr p)).data ++ ("&".data ++ "startPage".data)) = true := by
    rw [quote_plus_digits (Nat.repr p) (repr_digits p)]
    exact startsWith_append_self (Nat.repr p).data ("&".data ++ "startPage".data)
  have d0 : listEndsWith "&txtLocation".data
      (base_url.data ++ ("?".data ++ "from".data)) = false := by decide
  have d1 : listEndsWith "&txtLocation".data
      ((quote_plus "submit").data ++ ("&".data ++ "luceneResultSize".data)) = false := by
    decide
  have d2 : listEndsWith "&txtLocation".data
      ((quote_plus "25").data ++ ("&".data ++ "txtKeywords".data)) = false := by decide
  have d3 : listEndsWith "&txtLocation".data
      ((quote_plus q).data ++ ("&".data ++ "postWeek".data)) = false := by
    rcases h : listEndsWith "&txtLocation".data
        ((quote_plus q).data ++ ("&".data ++ "postWeek".data)) with _ | _
    · rfl
    · exact absurd (listEndsWith_transfer "&txtLocation".data _ _ h (by decide))
        (by decide)
  have d4 : listEndsWith "&txtLocation".data
      ((quote_plus "60").data ++ ("&".data ++ "searchType".data)) = false := by decide
  have d5 : listEndsWith "&txtLocation".data
      ((quote_plus "personalizedSearch").data
        ++ ("&".data ++ "actualTxtKeywords".data)) = false := by decide
  have d6 : listEndsWith "&txtLocation".data
      ((quote_plus q).data ++ ("&".data ++ "searchBy".data)) = false := by
    rcases h : listEndsWith "&txtLocation".data
        ((quote_plus q).data ++ ("&".data ++ "searchBy".data)) with _ | _
    · rfl
    · exact absurd (listEndsWith_transfer "&txtLocation".data _ _ h (by decide))
        (by decide)
  have d7 : listEndsWith "&txtLocation".data
      ((quote_plus "0").data ++ ("&".data ++ "rdoOperator".data)) = false := by decide
  have d8 : listEndsWith "&txtLocation".data
      ((quote_plus "OR").data ++ ("&".data ++ "pDate".data)) = false := by decide
  have d9 : listEndsWith "&txtLocation".data
      ((quote_plus "I").data ++ ("&".data ++ "sequence".data)) = false := by decide
  have d10 : listEndsWith "&txtLocation".data
      ((quote_plus (Nat.repr p)).data ++ ("&".data ++ "startPage".data)) = false := by
    rcases h : listEndsWith "&txtLocation".data
        ((quote_plus (Nat.repr p)).data ++ ("&".data ++ "startPage".data)) with _ | _
    · rfl
    · exact absurd (listEndsWith_transfer "&txtLocation".data _ _ h (by decide))
        (by decide)
  have d11a : listEndsWith "&txtLocation".data (quote_plus "1").data = false := by decide
  have d11b : listEndsWith "&txtLocation".data
      ((quote_plus "1").data ++ ("&".data ++ "txtLocation".data)) = true := by decide
  constructor
  · rw [url_decomp,
      show "sequence=".data ++ (Nat.repr p).data
        = "sequence".data ++ '=' :: (Nat.repr p).data from rfl,
      countPat_sepJoin (urlSegs q l p) "sequence".data (Nat.repr p).data
        (by decide) (by decide) hpost1 hsegs]
    by_cases hl : l = ""
    · have segsEq : urlSegs q l p
          = [base_url.data ++ ("?".data ++ "from".data),
             (quote_plus "submit").data ++ ("&".data ++ "luceneResultSize".data),
             (quote_plus "25").data ++ ("&".data ++ "txtKeywords".data),
             (quote_plus q).data ++ ("&".data ++ "postWeek".data),
             (quote_plus "60").data ++ ("&".data ++ "searchType".data),
             (quote_plus "personalizedSearch").data
               ++ ("&".data ++ "actualTxtKeywords".data),
             (quote_plus q).data ++ ("&".data ++ "searchBy".data),
             (quote_plus "0").data ++ ("&".data ++ "rdoOperator".data),
             (quote_plus "OR").data ++ ("&".data ++ "pDate".data),
             (quote_plus "I").data ++ ("&".data ++ "sequence".data),
             (quote_plus (Nat.repr p)).data ++ ("&".data ++ "startPage".data),
             (quote_plus "1").data] := by
        simp [urlSegs, hl]
      rw [segsEq]
      simp only [pairCount]
      rw [c0, c1, c2, c3, c4, c5, c6, c7, c8, c9, c10, g9]
      simp
    · have segsEq : urlSegs q l p
          = [base_url.data ++ ("?".data ++ "from".data),
             (quote_plus "submit").data ++ ("&".data ++ "luceneResultSize".data),
             (quote_plus "25").data ++ ("&".data ++ "txtKeywords".data),
             (quote_plus q).data ++ ("&".data ++ "postWeek".data),
             (quote_plus "60").data ++ ("&".data ++ "searchType".data),
             (quote_plus "personalizedSearch").data
               ++ ("&".data ++ "actualTxtKeywords".data),
             (quote_plus q).data ++ ("&".data ++ "searchBy".data),
             (quote_plus "0").data ++ ("&".data ++ "rdoOperator".data),
             (quote_plus "OR").data ++ ("&".data ++ "pDate".data),
             (quote_plus "I").data ++ ("&".data ++ "sequence".data),
             (quote_plus (Nat.repr p)).data ++ ("&".data ++ "startPage".data),
             (quote_plus "1").data ++ ("&".data ++ "txtLocation".data),
             (quote_plus l).data] := by
        simp [urlSegs, hl]
      rw [segsEq]
      simp only [pairCount]
      rw [c0, c1, c2, c3, c4, c5, c6, c7, c8, c9, c10, c11b, g9]
      simp
  · rw [url_decomp,
      show "&txtLocation=".data
        = "&txtLocation".data ++ '=' :: ([] : List Char) from rfl,
      countPat_sepJoin (urlSegs q l p) "&txtLocation".data []
        (by decide) (by decide) (by simp) hsegs]
    by_cases hl : l = ""
    · rw [if_pos hl]
      have segsEq : urlSegs q l p
          = [base_url.data ++ ("?".data ++ "from".data),
             (quote_plus "submit").data ++ ("&".data ++ "luceneResultSize".data),
             (quote_plus "25").data ++ ("&".data ++ "txtKeywords".data),
             (quote_plus q).data ++ ("&".data ++ "postWeek".data),
             (quote_plus "60").data ++ ("&".data ++ "searchType".data),
             (quote_plus "personalizedSearch").data
               ++ ("&".data ++ "actualTxtKeywords".data),
             (quote_plus q).data ++ ("&".data ++ "searchBy".data),
             (quote_plus "0").data ++ ("&".data ++ "rdoOperator".data),
             (quote_plus "OR").data ++ ("&".data ++ "pDate".data),
             (quote_plus "I").data ++ ("&".data ++ "sequence".data),
             (quote_plus (Nat.repr p)).data ++ ("&".data ++ "startPage".data),
             (quote_plus "1").data] := by
        simp [urlSegs, hl]
      rw [segsEq]
      simp only [pairCount]
      rw [d0, d1, d2, d3, d4, d5, d6, d7, d8, d9, d10]
      simp
    · rw [if_neg hl]
      have segsEq : urlSegs q l p
          = [base_url.data ++ ("?".data ++ "from".data),
             (quote_plus "submit").data ++ ("&".data ++ "luceneResultSize".data),
             (quote_plus "25").data ++ ("&".data ++ "txtKeywords".data),
             (quote_plus q).data ++ ("&".data ++ "postWeek".data),
             (quote_plus "60").data ++ ("&".data ++ "searchType".data),
             (quote_plus "personalizedSearch").data
               ++ ("&".data ++ "actualTxtKeywords".data),
             (quote_plus q).data ++ ("&".data ++ "searchBy".data),
             (quote_plus "0").data ++ ("&".data ++ "rdoOperator".data),
             (quote_plus "OR").data ++ ("&".data ++ "pDate".data),
             (quote_plus "I").data ++ ("&".data ++ "sequence".data),
             (quote_plus (Nat.repr p)).data ++ ("&".data ++ "startPage".data),
             (quote_plus "1").data ++ ("&".data ++ "txtLocation".data),
             (quote_plus l).data] := by
        simp [urlSegs, hl]
      rw [segsEq]
      simp only [pairCount]
      rw [d0, d1, d2, d3, d4, d5, d6, d7, d8, d9, d10, d11b]
      simp [listStartsWith]

end JobScraper
